import Mathlib

/-!
Shallow embedding of the product-tracker scraping core:
the scraper orchestrator (`scraperManager.ts`), the three platform
adapters (Amazon, AliExpress, Shopify) with their retry/backoff loops,
bot-page detection, HTML-candidate parsing, link normalization and price
parsing.  JavaScript strings are modelled as Lean `String` over their
character lists (all helpers are structural so the kernel can evaluate
them), scores are modelled as exact rationals, prices as JS doubles
with the NaN/Infinity outcomes of `parseFloat` kept apart from the
finite ones, and the DOM-selector stage of the external HTML library is
modelled by passing the list of matched candidate containers explicitly.
-/

/-! ### String helpers with JavaScript semantics -/

/-- JS `String.prototype.toLowerCase`, modelled characterwise. -/
def lowerStr (s : String) : String := ⟨s.data.map Char.toLower⟩

/-- JS `String.prototype.toUpperCase`, modelled characterwise. -/
def upperStr (s : String) : String := ⟨s.data.map Char.toUpper⟩

/-- JS `String.prototype.trim`: strip leading and trailing whitespace. -/
def jsTrim (s : String) : String :=
  ⟨((s.data.dropWhile Char.isWhitespace).reverse.dropWhile Char.isWhitespace).reverse⟩

/-- Substring test on character lists (used for JS `includes` and for
`RegExp.test` with a literal pattern). -/
def hasSubstrList (pat : List Char) : List Char → Bool
  | [] => pat.isEmpty
  | c :: rest => pat.isPrefixOf (c :: rest) || hasSubstrList pat rest

/-- JS `hay.includes(pat)`. -/
def containsStr (hay pat : String) : Bool := hasSubstrList pat.data hay.data

/-- Case-insensitive substring test, modelling `/pat/i.test(hay)` for a
literal pattern `pat`. -/
def containsCI (hay pat : String) : Bool := containsStr (lowerStr hay) (lowerStr pat)

/-- JS `s.startsWith(p)`. -/
def strStartsWith (s p : String) : Bool := p.data.isPrefixOf s.data

/-- Digits of a decimal string read as a natural number (value of a
digit run under JS number parsing). -/
def digitsToNat (cs : List Char) : Nat :=
  cs.foldl (fun n c => 10 * n + (c.toNat - 48)) 0

/-! ### JS float values produced by the price parsers -/

/-- A JS `number` as the price code can produce it: positive Infinity
(overflow of `parseFloat` on a huge digit run) or a finite value,
carried as the exact rational.  `NaN` is represented as `none` at the
`Option JsFloat` level where it can arise, mirroring that the code
stores `null` for it. -/
inductive JsFloat
  | inf
  | finite (q : ℚ)
deriving DecidableEq

/-- The IEEE-754 double overflow threshold: under round-to-nearest-even
a value rounds to Infinity exactly when it is at least the midpoint
between the largest finite double `2^1024 - 2^971` and `2^1024`. -/
def doubleOverflowBound : ℚ := 2 ^ 1024 - 2 ^ 970

/-- Rounding a non-negative exact parse result to a JS double, to the
precision the claims need: values at or beyond the overflow threshold
become Infinity, values below it stay finite (mantissa rounding inside
the finite range is not modelled; it never crosses the
finite/non-finite boundary). -/
def roundJsFloat (q : ℚ) : JsFloat :=
  if doubleOverflowBound ≤ q then .inf else .finite q

/-- JS `parseFloat` on a string made solely of digits and dots (all the
cleaned numeric parts are): longest prefix of shape `digits[.digits]`
or `.digits`; `none` models `NaN` when no digit can be read, and a
value at or beyond the double overflow threshold comes back as
Infinity, exactly as `parseFloat` returns it. -/
def jsParseFloatDD (s : String) : Option JsFloat :=
  let cs := s.data
  let intPart := cs.takeWhile Char.isDigit
  match cs.drop intPart.length with
  | '.' :: rest =>
    let fracPart := rest.takeWhile Char.isDigit
    if intPart.isEmpty && fracPart.isEmpty then none
    else
      some (roundJsFloat
        ((digitsToNat intPart : ℚ) + (digitsToNat fracPart : ℚ) / 10 ^ fracPart.length))
  | _ =>
    if intPart.isEmpty then none else some (roundJsFloat (digitsToNat intPart : ℚ))

/-! ### Data model (`types.ts`) -/

inductive PlatformName
  | amazon
  | aliexpress
  | shopify
deriving DecidableEq

/-- One scraped product candidate (`PlatformProduct` in `types.ts`).
The TS object carries `image` and `imageUrl` with the same value and a
redundant `sourcePlatform`; a single field stands for each pair here. -/
structure PlatformProduct where
  platform : PlatformName
  title : String
  url : String
  price : Option JsFloat
  currency : Option String
  image : Option String
deriving DecidableEq

/-- Per-platform result map (`PlatformMatches` in `types.ts`): one entry
per platform, always present. -/
structure PlatformMatches where
  amazon : List PlatformProduct
  aliexpress : List PlatformProduct
  shopify : List PlatformProduct
deriving DecidableEq

def getPlatform (m : PlatformMatches) : PlatformName → List PlatformProduct
  | .amazon => m.amazon
  | .aliexpress => m.aliexpress
  | .shopify => m.shopify

def setPlatform (m : PlatformMatches) : PlatformName → List PlatformProduct → PlatformMatches
  | .amazon, v => { m with amazon := v }
  | .aliexpress, v => { m with aliexpress := v }
  | .shopify, v => { m with shopify := v }

/-! ### Relevance scoring and ranking (`ScraperManager.computeScore` /
`sortByRelevance`) -/

/-- `ScraperManager.computeScore`.  JS `!product.title` is true exactly
for the empty string (the field is string-typed), and `Math.abs`,
`Math.max` and the float division are modelled exactly over ℚ. -/
def computeScore (query : String) (product : PlatformProduct) : ℚ :=
  if product.title = "" then 0
  else
    let normalizedQuery := lowerStr query
    let normalizedTitle := lowerStr product.title
    let base : ℚ := if containsStr normalizedTitle normalizedQuery then 2 else 0
    let lengthDifference : ℤ := (normalizedTitle.length : ℤ) - (normalizedQuery.length : ℤ)
    base + max 0 (1 - (lengthDifference.natAbs : ℚ) / (max normalizedQuery.length 1 : ℚ))

/-- The comparator order produced by `(a, b) => computeScore(b) - computeScore(a)`:
`a` may come before `b` exactly when `b`'s score is at most `a`'s. -/
def relevanceRel (query : String) (a b : PlatformProduct) : Prop :=
  computeScore query b ≤ computeScore query a

instance relevanceRelDecidable (query : String) : DecidableRel (relevanceRel query) :=
  fun a b => inferInstanceAs (Decidable (computeScore query b ≤ computeScore query a))

instance relevanceRelTotal (query : String) : IsTotal PlatformProduct (relevanceRel query) :=
  ⟨fun a b => le_total (computeScore query b) (computeScore query a)⟩

instance relevanceRelTrans (query : String) : IsTrans PlatformProduct (relevanceRel query) :=
  ⟨fun _ _ _ hab hbc => le_trans hbc hab⟩

/-- `ScraperManager.sortByRelevance`: `[...products].sort(cmp)` sorts a
fresh copy with a stable comparison sort (ECMAScript mandates
stability); a stable sort by the total preorder `relevanceRel` is
exactly insertion sort with it. -/
def sortByRelevance (query : String) (products : List PlatformProduct) : List PlatformProduct :=
  List.insertionSort (relevanceRel query) products

/-- The relevance score exactly as the specification words it: 2 points
if the lower-cased title contains the lower-cased query as a substring,
plus `max(0, 1 - |len(title) - len(query)| / max(len(query), 1))`, with
an empty-titled listing scoring 0.  Lengths here are of the original
title and query, as the spec writes them. -/
def specScore (query : String) (product : PlatformProduct) : ℚ :=
  if product.title = "" then 0
  else
    (if containsStr (lowerStr product.title) (lowerStr query) then 2 else 0)
      + max 0 (1 - (((product.title.length : ℤ) - (query.length : ℤ)).natAbs : ℚ)
          / (max query.length 1 : ℚ))

/-! ### Orchestrator (`ScraperManager.runAll`) -/

/-- Outcome of one adapter's `search()` promise as observed by the
orchestrator: either a product list or a thrown error. -/
abbrev AdapterOutcome := Except String (List PlatformProduct)

/-- The `Object.keys(scrapers)` iteration order of `runAll`. -/
def platformOrder : List PlatformName := [.amazon, .aliexpress, .shopify]

/-- Body of the per-platform task in `runAll`: try the adapter, rank its
products on success, and substitute an empty list when it throws. -/
def settleOutcome (query : String) (outcome : AdapterOutcome) : List PlatformProduct :=
  match outcome with
  | .ok products => sortByRelevance query products
  | .error _ => []

/-- `ScraperManager.runAll`, with each adapter's `search()` promise
outcome supplied explicitly per platform.  The final `reduce` over the
platform list into the all-empty initial record is kept as a fold. -/
def runAll (query : String) (outcomes : PlatformName → AdapterOutcome) : PlatformMatches :=
  platformOrder.foldl
    (fun acc platform => setPlatform acc platform (settleOutcome query (outcomes platform)))
    ⟨[], [], []⟩

/-! ### Fetch attempt loop shared by the three adapters
(`AmazonScraper.search`, `AliExpressScraper.search`,
`ShopifyScraper.search` are textually identical up to the bot-page
predicate and the parser). -/

/-- One HTTP attempt as seen by the `try` block of `search()`: either a
response object (status plus body text) or a thrown network/other
error. -/
inductive FetchOutcome
  | response (status : Nat) (body : String)
  | netError (message : String)
deriving DecidableEq

/-- How one attempt is dispatched inside the loop body. -/
inductive AttemptClass
  | transient
  | botPage
  | usable (body : String)
deriving DecidableEq

/-- Dispatch of one attempt, following the written order of checks:
thrown error → retry path; status 503/429 → retry path; empty or
whitespace-only body → retry path; bot-challenge body → give up;
otherwise parse. -/
def classifyAttempt (isBotPage : String → Bool) : FetchOutcome → AttemptClass
  | .netError _ => .transient
  | .response status body =>
    if status = 503 ∨ status = 429 then .transient
    else if jsTrim body = "" then .transient
    else if isBotPage body then .botPage
    else .usable body

/-- A transiently failing attempt: exactly the retry-path cases of
`classifyAttempt`, which do not consult the bot predicate. -/
def transientOutcome : FetchOutcome → Prop
  | .netError _ => True
  | .response status body => status = 503 ∨ status = 429 ∨ jsTrim body = ""

/-- Observable trace of one `search()` run: the returned products, the
backoff delays actually slept (in ms, in order), and how many fetch
attempts were made. -/
structure SearchTrace where
  products : List PlatformProduct
  delays : List Nat
  attempts : Nat
deriving DecidableEq

/-- The retry loop of `search()`.  `fetches` lists the outcome of each
successive HTTP attempt and `rng` the successive values of
`Math.floor(Math.random() * 300)` (folded to `% 300`, matching its
range); `maybeRetry` sleeps `300 + rng value` only when the failing
attempt is not the last one, and a random value is drawn only when a
delay is actually performed. -/
def searchGo (isBotPage : String → Bool) (parse : String → List PlatformProduct)
    (maxRetries : Nat) : Nat → List FetchOutcome → List Nat → SearchTrace
  | _, [], _ => ⟨[], [], 0⟩
  | attempt, f :: fs, rng =>
    if maxRetries < attempt then ⟨[], [], 0⟩
    else
      match classifyAttempt isBotPage f with
      | .transient =>
        if maxRetries ≤ attempt then
          let rest := searchGo isBotPage parse maxRetries (attempt + 1) fs rng
          ⟨rest.products, rest.delays, rest.attempts + 1⟩
        else
          let rest := searchGo isBotPage parse maxRetries (attempt + 1) fs rng.tail
          ⟨rest.products, (300 + rng.headD 0 % 300) :: rest.delays, rest.attempts + 1⟩
      | .botPage => ⟨[], [], 1⟩
      | .usable body => ⟨parse body, [], 1⟩

/-- `search()` for an adapter with the given bot predicate and parser:
`getSearchUrl()` always returns a non-empty template string for all
three adapters, so the empty-URL early return never fires and the run
is the loop from attempt 1 with `maxRetries = 3`. -/
def scraperSearch (isBotPage : String → Bool) (parse : String → List PlatformProduct)
    (fetches : List FetchOutcome) (rng : List Nat) : SearchTrace :=
  searchGo isBotPage parse 3 1 fetches rng

/-- Amazon bot check: `/Robot Check/i.test(html) || /captcha/i.test(html)`. -/
def amazonIsBotPage (html : String) : Bool :=
  containsCI html "Robot Check" || containsCI html "captcha"

/-- AliExpress `BOT_PATTERNS`: `/captcha/i`, `/robot/i`, `/verification/i`. -/
def aliexpressIsBotPage (html : String) : Bool :=
  containsCI html "captcha" || containsCI html "robot" || containsCI html "verification"

/-- Shopify (DuckDuckGo) `BOT_PATTERNS`: `/captcha/i`, `/verification/i`,
`/enable javascript/i`. -/
def shopifyIsBotPage (html : String) : Bool :=
  containsCI html "captcha" || containsCI html "verification" ||
    containsCI html "enable javascript"

/-! ### WHATWG URL fragment used by the adapters
Only the pieces the code touches are modelled: scheme/host/pathname/query
splitting of an absolute http-style URL, `origin`, `searchParams.get`
(with its lenient plus-and-percent decoding) and `toString`, plus the
strict `decodeURIComponent`. -/

structure JsUrl where
  scheme : String
  host : String
  pathname : String
  search : String
deriving DecidableEq

/-- First occurrence split: `some (before, after)` when `pat` occurs in
the list, with `before ++ pat ++ after` the input. -/
def splitFirstSub (pat : List Char) : List Char → Option (List Char × List Char)
  | [] => none
  | c :: rest =>
    if pat.isPrefixOf (c :: rest) then some ([], (c :: rest).drop pat.length)
    else
      match splitFirstSub pat rest with
      | some (pre, post) => some (c :: pre, post)
      | none => none

/-- Parse an absolute URL of shape `scheme://host[/path][?query][#frag]`;
`none` models the `URL` constructor throwing.  Like WHATWG, a URL with
no explicit path gets pathname `/`. -/
def parseJsUrl (s : String) : Option JsUrl :=
  match splitFirstSub "://".data s.data with
  | none => none
  | some (schemeCs, rest) =>
    if schemeCs.isEmpty || !schemeCs.all Char.isAlpha then none
    else
      let noFrag := rest.takeWhile (fun c => !(c == '#'))
      let hostCs := noFrag.takeWhile (fun c => !(c == '/' || c == '?'))
      if hostCs.isEmpty then none
      else
        match noFrag.drop hostCs.length with
        | [] => some ⟨⟨schemeCs⟩, ⟨hostCs⟩, "/", ""⟩
        | '?' :: q => some ⟨⟨schemeCs⟩, ⟨hostCs⟩, "/", ⟨q⟩⟩
        | afterHost =>
          let pathCs := afterHost.takeWhile (fun c => !(c == '?'))
          let qPart : String :=
            match afterHost.drop pathCs.length with
            | '?' :: q => ⟨q⟩
            | _ => ""
          some ⟨⟨schemeCs⟩, ⟨hostCs⟩, ⟨pathCs⟩, qPart⟩

def urlOrigin (u : JsUrl) : String := u.scheme ++ "://" ++ u.host

/-- `URL.toString()` for the parsed shape. -/
def urlToString (u : JsUrl) : String :=
  urlOrigin u ++ u.pathname ++ (if u.search = "" then "" else "?" ++ u.search)

def hexVal (c : Char) : Option Nat :=
  if c.isDigit then some (c.toNat - 48)
  else if 'a' ≤ c ∧ c ≤ 'f' then some (c.toNat - 87)
  else if 'A' ≤ c ∧ c ≤ 'F' then some (c.toNat - 55)
  else none

/-- The lenient decoding `URLSearchParams` applies to keys and values:
`+` becomes a space and valid `%hh` escapes are decoded, anything
malformed is kept literally.  (Multi-byte UTF-8 sequences are out of
scope; the inputs involved are ASCII.) -/
def percentDecodeLenient : List Char → List Char
  | [] => []
  | '+' :: rest => ' ' :: percentDecodeLenient rest
  | '%' :: a :: b :: rest =>
    match hexVal a, hexVal b with
    | some ha, some hb => Char.ofNat (16 * ha + hb) :: percentDecodeLenient rest
    | _, _ => '%' :: percentDecodeLenient (a :: b :: rest)
  | c :: rest => c :: percentDecodeLenient rest

/-- Strict `decodeURIComponent`: `none` models the `URIError` throw on a
malformed escape; `+` is not special. -/
def decodeUriComponent : List Char → Option (List Char)
  | [] => some []
  | '%' :: a :: b :: rest =>
    match hexVal a, hexVal b with
    | some ha, some hb => (decodeUriComponent rest).map (Char.ofNat (16 * ha + hb) :: ·)
    | _, _ => none
  | '%' :: _ :: [] => none
  | '%' :: [] => none
  | c :: rest => (decodeUriComponent rest).map (c :: ·)

/-- Split a character list on a separator character. -/
def splitListOn (sep : Char) (cs : List Char) : List (List Char) :=
  cs.foldr
    (fun c acc =>
      match acc with
      | cur :: rest => if c == sep then [] :: cur :: rest else (c :: cur) :: rest
      | [] => [[c]])
    [[]]

/-- First `k=v` pair (key up to the first `=`) whose decoded key matches,
returning the decoded value. -/
def firstQueryMatch (key : String) : List (List Char) → Option String
  | [] => none
  | part :: rest =>
    let k := part.takeWhile (fun c => !(c == '='))
    let v : List Char :=
      match part.drop k.length with
      | '=' :: tail => tail
      | _ => []
    if (⟨percentDecodeLenient k⟩ : String) = key then some ⟨percentDecodeLenient v⟩
    else firstQueryMatch key rest

/-- `url.searchParams.get(key)` over the raw query string: pairs are
split on `&` and both keys and values get the lenient decoding. -/
def getQueryParam (search : String) (key : String) : Option String :=
  firstQueryMatch key (splitListOn '&' search.data)

/-! ### Amazon adapter parsing (`amazonScraper.ts`) -/

def amazonBaseUrl : String := "https://www.amazon.com"

/-- Strip leading `/` characters: JS `candidate.replace(/^\/+/, "")`. -/
def stripLeadingSlashes (s : String) : String :=
  ⟨s.data.dropWhile (fun c => c == '/')⟩

/-- Strip trailing `/` characters: JS `s.replace(/\/+$/, "")`. -/
def stripTrailingSlashes (s : String) : String :=
  ⟨(s.data.reverse.dropWhile (fun c => c == '/')).reverse⟩

/-- `[A-Za-z0-9]`, the character class of `[A-Z0-9]` under the `i` flag. -/
def isAlnumChar (c : Char) : Bool := c.isAlpha || c.isDigit

/-- Search for `marker` followed by 10 alphanumeric characters, the way
`pathname.match(/\/dp\/([A-Z0-9]\x7b10\x7d)/i)` scans: at each position
where the marker matches, the next 10 characters must be alphanumeric,
otherwise the scan continues to the right.  Both sides are expected
lower-cased by the caller (case-insensitive flag). -/
def findCodeAfter (marker : List Char) : List Char → Option (List Char)
  | [] => none
  | c :: rest =>
    if marker.isPrefixOf (c :: rest) then
      let code := ((c :: rest).drop marker.length).take 10
      if code.length = 10 && code.all isAlnumChar then some code
      else findCodeAfter marker rest
    else findCodeAfter marker rest

/-- The product-code match of `normalizeProductLink` on a pathname:
`/dp/<code>` first, then `/gp/product/<code>`, case-insensitively, with
the captured code returned upper-cased as the code upper-cases it. -/
def amazonPathCode (pathname : String) : Option String :=
  match findCodeAfter "/dp/".data (lowerStr pathname).data with
  | some code => some (upperStr ⟨code⟩)
  | none =>
    match findCodeAfter "/gp/product/".data (lowerStr pathname).data with
    | some code => some (upperStr ⟨code⟩)
    | none => none

/-- `AmazonScraper.normalizeProductLink`, translated clause by clause:
trim; if the link does not start with `http`, glue it onto the base URL
with the written separator logic (empty separator when the link starts
with `/`, then leading slashes stripped — as written this drops the
slash between origin and path for root-relative links); parse; unwrap a
truthy `url`/`location` query parameter via `decodeURIComponent`;
canonicalize a recognized product code to `/dp/<CODE>`; otherwise fall
back to origin+pathname with trailing slashes trimmed.  `none` models
the `catch` branch returning null. -/
def normalizeProductLink (rawLink : String) : Option String :=
  if rawLink = "" then none
  else
    let candidate0 := jsTrim rawLink
    let candidate :=
      if strStartsWith candidate0 "http" then candidate0
      else
        amazonBaseUrl ++ (if strStartsWith candidate0 "/" then "" else "/")
          ++ stripLeadingSlashes candidate0
    match parseJsUrl candidate with
    | none => none
    | some u0 =>
      let redirectTarget :=
        match getQueryParam u0.search "url" with
        | some t => some t
        | none => getQueryParam u0.search "location"
      let unwrapped : Option JsUrl :=
        match redirectTarget with
        | none => some u0
        | some t =>
          if t = "" then some u0
          else
            match decodeUriComponent t.data with
            | none => none
            | some decCs =>
              let decoded : String := ⟨decCs⟩
              parseJsUrl
                (if strStartsWith decoded "http" then decoded else amazonBaseUrl ++ decoded)
      match unwrapped with
      | none => none
      | some u =>
        match amazonPathCode u.pathname with
        | some code => some (amazonBaseUrl ++ "/dp/" ++ code)
        | none => some (stripTrailingSlashes (urlOrigin u ++ u.pathname))

/-- One container matched by the result-list selector
`.s-main-slot .s-result-item[data-component-type="s-search-result"]`,
carrying exactly the attributes and texts the parser reads. -/
structure AmazonCandidate where
  dataComponentType : String
  sponsoredLabel : Bool
  headingTitleText : String
  headingLink : Option String
  mainImageSrc : Option String
  firstImageSrc : Option String
  hasPriceContainer : Bool
  priceSymbolText : String
  priceWholeText : String
  priceFractionText : String
deriving DecidableEq

/-- The sponsored check of `parseProducts`: attribute marker or a
sponsored-label element present. -/
def amazonSponsored (c : AmazonCandidate) : Bool :=
  c.dataComponentType == "sp-sponsored-result" || c.sponsoredLabel

def digitsOnly (s : String) : String := ⟨s.data.filter Char.isDigit⟩

/-- `CURRENCY_SYMBOLS[symbol] ?? symbol`. -/
def currencyFromSymbol (symbol : String) : String :=
  if symbol = "$" then "USD"
  else if symbol = "€" then "EUR"
  else if symbol = "£" then "GBP"
  else symbol

/-- `AmazonScraper.extractPrice`: with a price container present, read
symbol/whole/fraction texts (trimmed); a non-empty whole yields the
stored `parseFloat(whole.fraction)` result with `00` substituted for a
digitless fraction (the substituted fraction is a non-empty digit run,
so this parse is never NaN and `none` here only means the whole was
empty), and a non-empty symbol maps through the known symbol table. -/
def amazonExtractPrice (c : AmazonCandidate) : Option JsFloat × Option String :=
  if c.hasPriceContainer then
    let symbol := jsTrim c.priceSymbolText
    let whole := jsTrim c.priceWholeText
    let fraction := jsTrim c.priceFractionText
    let price : Option JsFloat :=
      if whole = "" then none
      else
        let normalizedWhole := digitsOnly whole
        let normalizedFraction :=
          if digitsOnly fraction = "" then "00" else digitsOnly fraction
        jsParseFloatDD (normalizedWhole ++ "." ++ normalizedFraction)
    let currency : Option String :=
      if symbol = "" then none else some (currencyFromSymbol symbol)
    (price, currency)
  else (none, none)

/-- The body of Amazon's `.each` callback for one container, as an
optional produced listing: sponsored containers and containers with a
missing title, missing/empty link or un-normalizable link yield
nothing. -/
def buildAmazonProduct (c : AmazonCandidate) : Option PlatformProduct :=
  if amazonSponsored c then none
  else
    let title := jsTrim c.headingTitleText
    match c.headingLink with
    | none => none
    | some rawLink =>
      if title = "" ∨ rawLink = "" then none
      else
        match normalizeProductLink rawLink with
        | none => none
        | some url =>
          let image :=
            match c.mainImageSrc with
            | some src => some src
            | none => c.firstImageSrc
          let priceInfo := amazonExtractPrice c
          some ⟨.amazon, title, url, priceInfo.1, priceInfo.2, image⟩

/-! ### The shared capped `.each` loop
All three `parseProducts` iterate candidates, stop as soon as the
accumulated list has reached `maxResults` (`return false`), skip
candidates their per-item extraction rejects (`return`), and push the
rest. -/

def capFoldGo (build : α → Option β) (maxResults : Nat) :
    List α → List β → List β
  | [], acc => acc.reverse
  | c :: cs, acc =>
    if maxResults ≤ acc.length then acc.reverse
    else
      match build c with
      | none => capFoldGo build maxResults cs acc
      | some p => capFoldGo build maxResults cs (p :: acc)

def capFold (build : α → Option β) (maxResults : Nat) (cands : List α) : List β :=
  capFoldGo build maxResults cands []

/-- `AmazonScraper.parseProducts`, over the containers matched by its
selector. -/
def amazonParseProducts (cands : List AmazonCandidate) (maxResults : Nat) :
    List PlatformProduct :=
  capFold buildAmazonProduct maxResults cands

/-! ### AliExpress adapter parsing (`aliexpressScraper.ts`) -/

def aliexpressBaseUrl : String := "https://www.aliexpress.com"

/-- `AliExpressScraper.ensureAbsoluteUrl`: an `http`-prefixed link is
kept, anything else is glued onto the base origin with the same written
separator logic as the Amazon normalizer (empty separator for a
leading-slash link whose leading slashes are then stripped), then
round-tripped through the URL parser. -/
def ensureAbsoluteUrl (relative : String) : Option String :=
  let normalized :=
    if strStartsWith relative "http" then relative
    else
      aliexpressBaseUrl ++ (if strStartsWith relative "/" then "" else "/")
        ++ stripLeadingSlashes relative
  match parseJsUrl normalized with
  | none => none
  | some u => some (urlToString u)

/-- One container matched by the `PRODUCT_SELECTORS` union, with the
attributes and element texts the parser reads.  `anchorTitleAttr` and
`anchorHref` are the `title`/`href` attributes of the matched
`a[href*="/item/"]` anchor (`none` when the anchor or attribute is
absent); the element texts are plain strings, `""` when the element is
absent, exactly as cheerio's `.text()` behaves. -/
structure AliExpressCandidate where
  anchorTitleAttr : Option String
  multiTitleText : String
  manhattanTitleText : String
  anchorText : String
  anchorHref : Option String
  containerHref : Option String
  imgSrc : Option String
  imgDataSrc : Option String
  imgImageSrc : Option String
  priceSaleText : String
  priceManhattanText : String
  priceClassText : String
  priceCurrentText : String
deriving DecidableEq

/-- The title expression
`anchor.attr("title") ?? find(".multi--titleText--nXeOvyr").text() ?? find(".manhattan--titleText--WccSjUS").text() ?? anchor.text()`:
`??` only falls through on null/undefined and `.text()` always returns
a string, so evaluation never advances past the first `.text()` call —
`manhattanTitleText` and `anchorText` are unreachable. -/
def aliTitle (c : AliExpressCandidate) : String :=
  match c.anchorTitleAttr with
  | some t => t
  | none => c.multiTitleText

/-- `anchor.attr("href") ?? container.attr("href")`. -/
def aliHref (c : AliExpressCandidate) : Option String :=
  match c.anchorHref with
  | some h => some h
  | none => c.containerHref

/-- `img src ?? data-src ?? image-src` (attributes, so `??` chains). -/
def aliImage (c : AliExpressCandidate) : Option String :=
  match c.imgSrc with
  | some s => some s
  | none =>
    match c.imgDataSrc with
    | some s => some s
    | none => c.imgImageSrc

/-- `AliExpressScraper.extractPriceText`: `||`-chain over element texts,
first non-empty one wins, else `""`. -/
def extractPriceText (c : AliExpressCandidate) : String :=
  if c.priceSaleText ≠ "" then c.priceSaleText
  else if c.priceManhattanText ≠ "" then c.priceManhattanText
  else if c.priceClassText ≠ "" then c.priceClassText
  else if c.priceCurrentText ≠ "" then c.priceCurrentText
  else ""

/-! #### The price pattern `/([$€£]|[A-Z]\x7b3\x7d)?\s*([\d.,]+)/` -/

def isCurrencySymbolChar (c : Char) : Bool := c == '$' || c == '€' || c == '£'

def isUpperAZ (c : Char) : Bool := 'A' ≤ c && c ≤ 'Z'

def isNumPatternChar (c : Char) : Bool := c.isDigit || c == '.' || c == ','

/-- The `\s*([\d.,]+)` tail of the pattern at a fixed position: skip
whitespace greedily (safe: no number character is whitespace), then
require at least one `[\d.,]` character. -/
def priceMatchTail (cs : List Char) : Option String :=
  let afterWs := cs.dropWhile Char.isWhitespace
  let num := afterWs.takeWhile isNumPatternChar
  if num.isEmpty then none else some ⟨num⟩

/-- The whole pattern anchored at one position, with the regex
alternation preference: the single-symbol branch of the optional group
first, then the three-letter branch, then the group skipped. -/
def priceMatchAt (cs : List Char) : Option (Option String × String) :=
  let withSymbol : Option (Option String × String) :=
    match cs with
    | c :: rest =>
      if isCurrencySymbolChar c then
        (priceMatchTail rest).map (fun n => (some ⟨[c]⟩, n))
      else none
    | [] => none
  match withSymbol with
  | some r => some r
  | none =>
    let withCode : Option (Option String × String) :=
      match cs with
      | a :: b :: c :: rest =>
        if isUpperAZ a && isUpperAZ b && isUpperAZ c then
          (priceMatchTail rest).map (fun n => (some ⟨[a, b, c]⟩, n))
        else none
      | _ => none
    match withCode with
    | some r => some r
    | none => (priceMatchTail cs).map (fun n => ((none : Option String), n))

/-- Unanchored search: leftmost position where the pattern matches,
returning the two capture groups. -/
def priceMatchList : List Char → Option (Option String × String)
  | [] => none
  | c :: rest =>
    match priceMatchAt (c :: rest) with
    | some r => some r
    | none => priceMatchList rest

/-- `match[2].replace(/,/g, "").replace(/[^\d.]/g, "")`. -/
def cleanNumeric (num : String) : String :=
  ⟨(num.data.filter (fun c => !(c == ','))).filter (fun c => c.isDigit || c == '.')⟩

/-- `AliExpressScraper.parsePrice`: empty text and a failed pattern give
`(null, null)`; otherwise commas are stripped from the numeric capture,
every non-digit-non-dot removed, and the trimmed currency capture is
reported independently.  The final `Number.isNaN(price) ? null : price`
guard maps NaN — and only NaN — to null, which is the identity on this
representation (`none` is NaN/null); an Infinity parse passes the guard
and is stored as the price. -/
def parsePrice (raw : String) : Option JsFloat × Option String :=
  if raw = "" then (none, none)
  else
    match priceMatchList raw.data with
    | none => (none, none)
    | some (currencySymbol, num) =>
      let numericPart := cleanNumeric num
      let price := if numericPart = "" then none else jsParseFloatDD numericPart
      (price, currencySymbol.map jsTrim)

/-- The body of AliExpress's `.each` callback for one container:
candidates missing a link or a non-empty trimmed title are skipped
(`!href || !title?.trim()`), as are those whose link the URL parser
rejects. -/
def buildAliExpressProduct (c : AliExpressCandidate) : Option PlatformProduct :=
  let title := aliTitle c
  match aliHref c with
  | none => none
  | some href =>
    if href = "" ∨ jsTrim title = "" then none
    else
      match ensureAbsoluteUrl href with
      | none => none
      | some url =>
        let priceInfo := parsePrice (extractPriceText c)
        some ⟨.aliexpress, jsTrim title, url, priceInfo.1, priceInfo.2, aliImage c⟩

/-- `AliExpressScraper.parseProducts`. -/
def aliexpressParseProducts (cands : List AliExpressCandidate) (maxResults : Nat) :
    List PlatformProduct :=
  capFold buildAliExpressProduct maxResults cands

/-! ### Shopify adapter parsing (`shopifyScraper.ts`) -/

def shopifySearchBaseUrl : String := "https://duckduckgo.com/html/"

/-- `SHOPIFY_DOMAIN_REGEX = /(myshopify\.com|\.shopify\.com)/i`. -/
def shopifyDomainTest (url : String) : Bool :=
  containsCI url "myshopify.com" || containsCI url ".shopify.com"

/-- The trailing plain checks of `normalizeResultLink`. -/
def shopifyHttpFallback (rawHref : String) : Option String :=
  if strStartsWith rawHref "http" then some rawHref else none

/-- `ShopifyScraper.normalizeResultLink`: a missing or empty href gives
null; a DuckDuckGo redirect wrapper `/l/?...` is resolved against the
search base (its query string is everything after the `?`, up to a
fragment) and a truthy `uddg` parameter is returned
`decodeURIComponent`-ed (`none` when that throws); otherwise — also
when `uddg` is absent or empty — the href is accepted only if it
already starts with `http`. -/
def normalizeResultLink (rawHref : Option String) : Option String :=
  match rawHref with
  | none => none
  | some href =>
    if href = "" then none
    else if strStartsWith href "/l/?" then
      let search : String := ⟨(href.data.drop 4).takeWhile (fun c => !(c == '#'))⟩
      match getQueryParam search "uddg" with
      | some enc =>
        if enc = "" then shopifyHttpFallback href
        else
          match decodeUriComponent enc.data with
          | some dec => some ⟨dec⟩
          | none => none
      | none => shopifyHttpFallback href
    else shopifyHttpFallback href

/-- One container matched by the `.result` selector: the first
`a.result__a` anchor's href attribute and text. -/
structure ShopifyCandidate where
  anchorHref : Option String
  anchorText : String
deriving DecidableEq

/-- The body of Shopify's `.each` callback for one container: the link
must normalize and match the storefront domain pattern, the trimmed
anchor text must be non-empty; price, currency and image are always
unknown. -/
def buildShopifyProduct (c : ShopifyCandidate) : Option PlatformProduct :=
  match normalizeResultLink c.anchorHref with
  | none => none
  | some url =>
    if !shopifyDomainTest url then none
    else
      let title := jsTrim c.anchorText
      if title = "" then none
      else some ⟨.shopify, title, url, none, none, none⟩

/-- `ShopifyScraper.parseProducts`. -/
def shopifyParseProducts (cands : List ShopifyCandidate) (maxResults : Nat) :
    List PlatformProduct :=
  capFold buildShopifyProduct maxResults cands

/-! ### Full adapter `search()` instantiations
The selector stage of the HTML library is abstracted as an `extract`
function from the body to the matched candidate list. -/

def amazonSearch (extract : String → List AmazonCandidate) (maxResults : Nat)
    (fetches : List FetchOutcome) (rng : List Nat) : SearchTrace :=
  scraperSearch amazonIsBotPage (fun html => amazonParseProducts (extract html) maxResults)
    fetches rng

def aliexpressSearch (extract : String → List AliExpressCandidate) (maxResults : Nat)
    (fetches : List FetchOutcome) (rng : List Nat) : SearchTrace :=
  scraperSearch aliexpressIsBotPage
    (fun html => aliexpressParseProducts (extract html) maxResults) fetches rng

def shopifySearch (extract : String → List ShopifyCandidate) (maxResults : Nat)
    (fetches : List FetchOutcome) (rng : List Nat) : SearchTrace :=
  scraperSearch shopifyIsBotPage (fun html => shopifyParseProducts (extract html) maxResults)
    fetches rng

/-! ### Helper lemmas -/

lemma capFoldGo_length_le (build : α → Option β) (maxResults : Nat) (cands : List α) :
    ∀ acc : List β, acc.length ≤ maxResults →
      (capFoldGo build maxResults cands acc).length ≤ maxResults := by
  induction cands with
  | nil => intro acc h; simpa [capFoldGo] using h
  | cons c cs ih =>
    intro acc h
    rw [capFoldGo]
    by_cases hle : maxResults ≤ acc.length
    · rw [if_pos hle]; simpa using h
    · rw [if_neg hle]
      cases hb : build c with
      | none => exact ih acc h
      | some p => exact ih (p :: acc) (Nat.succ_le_of_lt (Nat.lt_of_not_le hle))

lemma capFold_length_le (build : α → Option β) (maxResults : Nat) (cands : List α) :
    (capFold build maxResults cands).length ≤ maxResults :=
  capFoldGo_length_le build maxResults cands [] (Nat.zero_le _)

lemma capFoldGo_mem (build : α → Option β) (maxResults : Nat) (cands : List α) :
    ∀ (acc : List β) (p : β), p ∈ capFoldGo build maxResults cands acc →
      p ∈ acc ∨ ∃ c ∈ cands, build c = some p := by
  induction cands with
  | nil =>
    intro acc p hp
    rw [capFoldGo] at hp
    exact Or.inl (List.mem_reverse.mp hp)
  | cons c cs ih =>
    intro acc p hp
    rw [capFoldGo] at hp
    by_cases hle : maxResults ≤ acc.length
    · rw [if_pos hle] at hp
      exact Or.inl (List.mem_reverse.mp hp)
    · rw [if_neg hle] at hp
      cases hb : build c with
      | none =>
        rw [hb] at hp
        rcases ih acc p hp with h | ⟨d, hd, hdp⟩
        · exact Or.inl h
        · exact Or.inr ⟨d, List.mem_cons_of_mem c hd, hdp⟩
      | some q =>
        rw [hb] at hp
        rcases ih (q :: acc) p hp with h | ⟨d, hd, hdp⟩
        · rcases List.mem_cons.mp h with rfl | h
          · exact Or.inr ⟨c, List.mem_cons_self c cs, hb⟩
          · exact Or.inl h
        · exact Or.inr ⟨d, List.mem_cons_of_mem c hd, hdp⟩

lemma capFold_mem (build : α → Option β) (maxResults : Nat) (cands : List α)
    (p : β) (hp : p ∈ capFold build maxResults cands) :
    ∃ c ∈ cands, build c = some p := by
  rcases capFoldGo_mem build maxResults cands [] p hp with h | h
  · cases h
  · exact h

lemma buildAmazonProduct_not_sponsored (c : AmazonCandidate) (p : PlatformProduct)
    (hb : buildAmazonProduct c = some p) : amazonSponsored c = false := by
  cases hs : amazonSponsored c with
  | false => rfl
  | true => rw [buildAmazonProduct, hs] at hb; simp at hb

lemma runAll_eq (query : String) (outcomes : PlatformName → AdapterOutcome) :
    runAll query outcomes =
      ⟨settleOutcome query (outcomes .amazon), settleOutcome query (outcomes .aliexpress),
        settleOutcome query (outcomes .shopify)⟩ := rfl

/-! ### The claims -/

/-- C1: a `runAll` run yields a result map with exactly one (possibly
empty) entry per platform; a platform whose adapter promise rejected
gets the empty sequence, a platform whose adapter resolved gets exactly
the relevance-ranked sequence it produced, and `runAll` — modelled as a
total function on the adapter outcomes, including thrown ones — never
propagates an exception. -/
theorem claim_C1 (query : String) (outcomes : PlatformName → AdapterOutcome)
    (platform : PlatformName) :
    (∀ e, outcomes platform = .error e → getPlatform (runAll query outcomes) platform = []) ∧
    (∀ products, outcomes platform = .ok products →
      getPlatform (runAll query outcomes) platform = sortByRelevance query products) := by
  constructor
  · intro e he
    cases platform <;> rw [runAll_eq] <;> simp [getPlatform, settleOutcome, he]
  · intro products hp
    cases platform <;> rw [runAll_eq] <;> simp [getPlatform, settleOutcome, hp]

def crashWitnessProduct : PlatformProduct :=
  ⟨.amazon, "wireless mouse", "https://www.amazon.com/dp/B0ABC12345", none, none, none⟩

def crashWitnessOutcomes : PlatformName → AdapterOutcome
  | .amazon => .ok [crashWitnessProduct]
  | .aliexpress => .error "socket hang up"
  | .shopify => .ok []

/-- Witness for C1: with the AliExpress adapter crashing and the other
two resolving, the crashed platform's entry is empty and the others are
their ranked lists. -/
theorem claim_C1_witness :
    getPlatform (runAll "wireless mouse" crashWitnessOutcomes) .aliexpress = [] ∧
    getPlatform (runAll "wireless mouse" crashWitnessOutcomes) .amazon =
      sortByRelevance "wireless mouse" [crashWitnessProduct] ∧
    getPlatform (runAll "wireless mouse" crashWitnessOutcomes) .shopify =
      sortByRelevance "wireless mouse" [] :=
  ⟨(claim_C1 "wireless mouse" crashWitnessOutcomes .aliexpress).1 "socket hang up" rfl,
   (claim_C1 "wireless mouse" crashWitnessOutcomes .amazon).2 [crashWitnessProduct] rfl,
   (claim_C1 "wireless mouse" crashWitnessOutcomes .shopify).2 [] rfl⟩

/-- C2: for each of the three adapters, the parsed listing sequence
never exceeds `maxResults`, however many candidate containers the page
supplies (the `.each` loop stops as soon as the cap is reached). -/
theorem claim_C2 (maxResults : Nat) (amazonCands : List AmazonCandidate)
    (aliCands : List AliExpressCandidate) (shopifyCands : List ShopifyCandidate) :
    (amazonParseProducts amazonCands maxResults).length ≤ maxResults ∧
    (aliexpressParseProducts aliCands maxResults).length ≤ maxResults ∧
    (shopifyParseProducts shopifyCands maxResults).length ≤ maxResults :=
  ⟨capFold_length_le _ _ _, capFold_length_le _ _ _, capFold_length_le _ _ _⟩

/-- C6: every listing the Amazon parser emits comes from a candidate
container that is not flagged sponsored (neither the attribute marker
nor a sponsored-label element) — sponsored containers never produce a
listing. -/
theorem claim_C6 (cands : List AmazonCandidate) (maxResults : Nat) (p : PlatformProduct)
    (hp : p ∈ amazonParseProducts cands maxResults) :
    ∃ c ∈ cands, amazonSponsored c = false ∧ buildAmazonProduct c = some p := by
  rcases capFold_mem buildAmazonProduct maxResults cands p hp with ⟨c, hc, hb⟩
  exact ⟨c, hc, buildAmazonProduct_not_sponsored c p hb, hb⟩

def amazonWitnessCandidate : AmazonCandidate :=
  ⟨"s-search-result", false, " Wireless Mouse 2.4G ",
    some "https://www.amazon.com/dp/b0abc12345/ref=sr_1_1", none, none, false, "", "", ""⟩

def amazonWitnessProduct : PlatformProduct :=
  ⟨.amazon, "Wireless Mouse 2.4G", "https://www.amazon.com/dp/B0ABC12345", none, none, none⟩

/-- Witness for C6: a concrete non-sponsored container that does emit a
listing. -/
theorem claim_C6_witness :
    ∃ c ∈ [amazonWitnessCandidate], amazonSponsored c = false ∧
      buildAmazonProduct c = some amazonWitnessProduct :=
  claim_C6 [amazonWitnessCandidate] 10 amazonWitnessProduct (by decide)

/-- C10: the orchestrator's ranking step returns a permutation of its
input — no listing is added, removed or duplicated.  (The JS code sorts
a spread copy, so the input array itself is untouched; in this pure
model non-mutation is inherent.) -/
theorem claim_C10 (query : String) (products : List PlatformProduct) :
    (sortByRelevance query products).Perm products :=
  List.perm_insertionSort (relevanceRel query) products

lemma classify_transient (isBotPage : String → Bool) (f : FetchOutcome)
    (h : transientOutcome f) : classifyAttempt isBotPage f = .transient := by
  cases f with
  | netError m => rfl
  | response status body =>
    rcases h with h1 | h2 | h3
    · simp [classifyAttempt, h1]
    · simp [classifyAttempt, h2]
    · by_cases hs : status = 503 ∨ status = 429
      · simp [classifyAttempt, hs]
      · simp [classifyAttempt, hs, h3]

lemma scraperSearch_three_transient (isBotPage : String → Bool)
    (parse : String → List PlatformProduct) (f1 f2 f3 : FetchOutcome) (rng : List Nat)
    (h1 : transientOutcome f1) (h2 : transientOutcome f2) (h3 : transientOutcome f3) :
    scraperSearch isBotPage parse [f1, f2, f3] rng =
      ⟨[], [300 + rng.headD 0 % 300, 300 + rng.tail.headD 0 % 300], 3⟩ := by
  have c1 := classify_transient isBotPage f1 h1
  have c2 := classify_transient isBotPage f2 h2
  have c3 := classify_transient isBotPage f3 h3
  simp [scraperSearch, searchGo, c1, c2, c3]

/-- The exhausted-retries outcome C4 describes: empty result, exactly 3
attempts made, exactly 2 backoff delays, each in [300, 600) ms. -/
def exhaustedTrace (t : SearchTrace) : Prop :=
  t.products = [] ∧ t.attempts = 3 ∧ t.delays.length = 2 ∧
    ∀ d ∈ t.delays, 300 ≤ d ∧ d < 600

lemma exhaustedTrace_mk (a b : Nat) :
    exhaustedTrace ⟨[], [300 + a % 300, 300 + b % 300], 3⟩ := by
  refine ⟨rfl, rfl, rfl, ?_⟩
  intro d hd
  have ha : a % 300 < 300 := Nat.mod_lt _ (by decide)
  have hb : b % 300 < 300 := Nat.mod_lt _ (by decide)
  simp at hd
  rcases hd with rfl | rfl <;> omega

/-- C4: for each adapter, three consecutive transient failures (503/429
status, empty body, or a thrown network error) exhaust the retry
budget: the search returns the empty sequence after exactly 3 attempts
with exactly 2 inter-attempt backoff delays — none after the final
attempt — each delay lying in [300, 600) ms. -/
theorem claim_C4 (extractA : String → List AmazonCandidate)
    (extractE : String → List AliExpressCandidate)
    (extractS : String → List ShopifyCandidate) (maxResults : Nat)
    (f1 f2 f3 : FetchOutcome) (rng : List Nat)
    (h1 : transientOutcome f1) (h2 : transientOutcome f2) (h3 : transientOutcome f3) :
    exhaustedTrace (amazonSearch extractA maxResults [f1, f2, f3] rng) ∧
    exhaustedTrace (aliexpressSearch extractE maxResults [f1, f2, f3] rng) ∧
    exhaustedTrace (shopifySearch extractS maxResults [f1, f2, f3] rng) := by
  refine ⟨?_, ?_, ?_⟩
  · rw [amazonSearch, scraperSearch_three_transient _ _ _ _ _ _ h1 h2 h3]
    exact exhaustedTrace_mk _ _
  · rw [aliexpressSearch, scraperSearch_three_transient _ _ _ _ _ _ h1 h2 h3]
    exact exhaustedTrace_mk _ _
  · rw [shopifySearch, scraperSearch_three_transient _ _ _ _ _ _ h1 h2 h3]
    exact exhaustedTrace_mk _ _

/-- Witness for C4: two 503 responses followed by a thrown network
error, with concrete random draws 7 and 450 (delays 307 ms and 450 ms). -/
theorem claim_C4_witness :
    exhaustedTrace (amazonSearch (fun _ => []) 10
      [.response 503 "overloaded", .response 503 "overloaded", .netError "ECONNRESET"]
      [7, 450]) ∧
    exhaustedTrace (aliexpressSearch (fun _ => []) 10
      [.response 503 "overloaded", .response 503 "overloaded", .netError "ECONNRESET"]
      [7, 450]) ∧
    exhaustedTrace (shopifySearch (fun _ => []) 10
      [.response 503 "overloaded", .response 503 "overloaded", .netError "ECONNRESET"]
      [7, 450]) :=
  claim_C4 (fun _ => []) (fun _ => []) (fun _ => []) 10
    (.response 503 "overloaded") (.response 503 "overloaded") (.netError "ECONNRESET")
    [7, 450] (Or.inl rfl) (Or.inl rfl) trivial

lemma scraperSearch_botPage (isBotPage : String → Bool)
    (parse : String → List PlatformProduct) (status : Nat) (body : String)
    (fs : List FetchOutcome) (rng : List Nat)
    (hstatus : ¬(status = 503 ∨ status = 429)) (hbody : jsTrim body ≠ "")
    (hbot : isBotPage body = true) :
    scraperSearch isBotPage parse (.response status body :: fs) rng = ⟨[], [], 1⟩ := by
  have hc : classifyAttempt isBotPage (.response status body) = .botPage := by
    simp [classifyAttempt, hstatus, hbody, hbot]
  simp [scraperSearch, searchGo, hc]

/-- C5: for each adapter, a fetch attempt that succeeds (no transient
status) with a non-empty body matching that adapter's bot-challenge
markers makes `search()` return the empty sequence at once: one attempt
made, no further attempts, no backoff delays — whatever outcomes would
have followed. -/
theorem claim_C5 (extractA : String → List AmazonCandidate)
    (extractE : String → List AliExpressCandidate)
    (extractS : String → List ShopifyCandidate) (maxResults : Nat)
    (status : Nat) (body : String) (fs : List FetchOutcome) (rng : List Nat)
    (hstatus : ¬(status = 503 ∨ status = 429)) (hbody : jsTrim body ≠ "") :
    (amazonIsBotPage body = true →
      amazonSearch extractA maxResults (.response status body :: fs) rng = ⟨[], [], 1⟩) ∧
    (aliexpressIsBotPage body = true →
      aliexpressSearch extractE maxResults (.response status body :: fs) rng = ⟨[], [], 1⟩) ∧
    (shopifyIsBotPage body = true →
      shopifySearch extractS maxResults (.response status body :: fs) rng = ⟨[], [], 1⟩) :=
  ⟨fun hbot => scraperSearch_botPage _ _ _ _ _ _ hstatus hbody hbot,
   fun hbot => scraperSearch_botPage _ _ _ _ _ _ hstatus hbody hbot,
   fun hbot => scraperSearch_botPage _ _ _ _ _ _ hstatus hbody hbot⟩

def challengeBody : String :=
  "Robot Check: please solve this captcha for verification and enable javascript"

/-- Witness for C5: a single HTTP 200 challenge page (matching all
three adapters' marker sets) yields the empty trace with one attempt
and zero delays on every adapter, even with more outcomes queued. -/
theorem claim_C5_witness :
    amazonSearch (fun _ => []) 10
      [.response 200 challengeBody, .response 200 "x"] [3] = ⟨[], [], 1⟩ ∧
    aliexpressSearch (fun _ => []) 10
      [.response 200 challengeBody, .response 200 "x"] [3] = ⟨[], [], 1⟩ ∧
    shopifySearch (fun _ => []) 10
      [.response 200 challengeBody, .response 200 "x"] [3] = ⟨[], [], 1⟩ := by
  have h := claim_C5 (fun _ => []) (fun _ => []) (fun _ => []) 10 200 challengeBody
    [.response 200 "x"] [3] (by decide) (by decide)
  exact ⟨h.1 (by decide), h.2.1 (by decide), h.2.2 (by decide)⟩

/-- The digit run `1` followed by 309 zeros: its value `10^309` is far
beyond the double range, so `parseFloat` returns Infinity on it. -/
def overflowDigits : String := ⟨'1' :: List.replicate 309 '0'⟩

/-- A raw price text whose numeric capture overflows: `$10^309`. -/
def overflowPriceText : String := ⟨'$' :: overflowDigits.data⟩

set_option maxRecDepth 8192 in
/-- C9, counterexample: the numeric part of `overflowPriceText` fails
to parse as a finite number — `parseFloat` yields Infinity, not NaN —
yet the resulting price is Infinity rather than none, because the code
guards only `Number.isNaN`.  The claim as stated (any non-finite parse
gives a null price) is false on this input. -/
theorem claim_C9_counterexample :
    (parsePrice overflowPriceText).1 = some .inf ∧
    (parsePrice overflowPriceText).1 ≠ none ∧
    (parsePrice overflowPriceText).2 = some "$" := by
  have hparse0 : jsParseFloatDD overflowDigits =
      some (roundJsFloat ((digitsToNat overflowDigits.data : ℕ) : ℚ)) := rfl
  have hval : (digitsToNat overflowDigits.data : ℕ) = 10 ^ 309 := by decide
  have hnat : (2 : ℕ) ^ 1024 ≤ 10 ^ 309 := by decide
  have hge : doubleOverflowBound ≤ (((10 : ℕ) ^ 309 : ℕ) : ℚ) := by
    rw [doubleOverflowBound]
    have h2 : ((2 : ℚ) ^ 1024) ≤ (((10 : ℕ) ^ 309 : ℕ) : ℚ) := by
      calc (2 : ℚ) ^ 1024 = (((2 : ℕ) ^ 1024 : ℕ) : ℚ) := by push_cast; ring
        _ ≤ (((10 : ℕ) ^ 309 : ℕ) : ℚ) := by exact_mod_cast hnat
    have h3 : (0 : ℚ) ≤ 2 ^ 970 := by positivity
    linarith
  have hparse : jsParseFloatDD overflowDigits = some .inf := by
    rw [hparse0, hval, roundJsFloat, if_pos hge]
  have hprice : parsePrice overflowPriceText =
      (jsParseFloatDD overflowDigits, some "$") := rfl
  rw [hprice, hparse]
  exact ⟨rfl, by simp, rfl⟩

/-- C9, amended: whenever the price pattern matches the raw text with
capture groups `(currencySymbol?, num)`, the reported currency is
exactly the trimmed captured symbol/code (independent of the numeric
parse), the price is the JS float parse of the comma-stripped,
digits-and-dots-only numeric capture, a capture that parses to NaN
yields a null price — but a capture that overflows to Infinity is
reported as an Infinity price, since the code's guard checks NaN only,
not finiteness. -/
theorem claim_C9_amended (raw : String) (currencySymbol : Option String) (num : String)
    (hmatch : priceMatchList raw.data = some (currencySymbol, num)) :
    (parsePrice raw).2 = currencySymbol.map jsTrim ∧
    (parsePrice raw).1 =
      (if cleanNumeric num = "" then none else jsParseFloatDD (cleanNumeric num)) ∧
    (jsParseFloatDD (cleanNumeric num) = none → (parsePrice raw).1 = none) ∧
    (jsParseFloatDD (cleanNumeric num) = some .inf →
      (parsePrice raw).1 = some .inf) := by
  have hraw : ¬ raw = "" := by
    intro h
    rw [h] at hmatch
    simp [priceMatchList] at hmatch
  refine ⟨?_, ?_, ?_, ?_⟩
  · rw [parsePrice, if_neg hraw, hmatch]
  · rw [parsePrice, if_neg hraw, hmatch]
  · intro hnan
    rw [parsePrice, if_neg hraw, hmatch]
    by_cases hempty : cleanNumeric num = ""
    · simp [hempty]
    · simp [hempty, hnan]
  · intro hinf
    rw [parsePrice, if_neg hraw, hmatch]
    have hempty : ¬ cleanNumeric num = "" := by
      intro h
      rw [h] at hinf
      simp [jsParseFloatDD] at hinf
    simp [hempty, hinf]

/-- Witness for the amended C9: the raw text `USD .` matches with
currency `USD` and numeric capture `.`, whose parse is NaN — the price
is null while the currency is still reported. -/
theorem claim_C9_witness :
    (parsePrice "USD .").1 = none ∧ (parsePrice "USD .").2 = some "USD" := by
  have h := claim_C9_amended "USD ." (some "USD") "." (by decide)
  exact ⟨h.2.2.1 (by decide), by rw [h.1]; rfl⟩

/-! ### Relevance ranking: C3 and its support -/

lemma lowerStr_length (s : String) : (lowerStr s).length = s.length := by
  cases s with
  | mk data => simp [lowerStr, String.length]

lemma computeScore_eq_specScore (query : String) (product : PlatformProduct) :
    computeScore query product = specScore query product := by
  by_cases h : product.title = ""
  · simp [computeScore, specScore, h]
  · simp [computeScore, specScore, h, lowerStr_length]

lemma filter_orderedInsert (query : String) (s : ℚ) (a : PlatformProduct)
    (l : List PlatformProduct) :
    (List.orderedInsert (relevanceRel query) a l).filter
        (fun p => decide (computeScore query p = s)) =
      if computeScore query a = s then
        a :: l.filter (fun p => decide (computeScore query p = s))
      else l.filter (fun p => decide (computeScore query p = s)) := by
  induction l with
  | nil =>
    by_cases has : computeScore query a = s <;>
      simp [List.orderedInsert, List.filter_cons, has]
  | cons b t ih =>
    rw [List.orderedInsert]
    by_cases hr : relevanceRel query a b
    · rw [if_pos hr]
      by_cases has : computeScore query a = s <;>
        simp [List.filter_cons, has]
    · rw [if_neg hr]
      have hlt : computeScore query a < computeScore query b := not_le.mp hr
      by_cases has : computeScore query a = s
      · have hbs : ¬ computeScore query b = s := by
          intro hb
          rw [has, hb] at hlt
          exact lt_irrefl s hlt
        simp [List.filter_cons, hbs, ih, has]
      · by_cases hbs : computeScore query b = s <;>
          simp [List.filter_cons, hbs, ih, has]

lemma filter_sortByRelevance (query : String) (s : ℚ) (products : List PlatformProduct) :
    (sortByRelevance query products).filter (fun p => decide (computeScore query p = s)) =
      products.filter (fun p => decide (computeScore query p = s)) := by
  induction products with
  | nil => rfl
  | cons a t ih =>
    rw [sortByRelevance, List.insertionSort, filter_orderedInsert]
    rw [sortByRelevance] at ih
    by_cases has : computeScore query a = s <;> simp [List.filter_cons, has, ih]

def redMugExact : PlatformProduct :=
  ⟨.amazon, "red mug", "https://www.amazon.com/dp/RED0MUG001", none, none, none⟩

def redMugSet : PlatformProduct :=
  ⟨.aliexpress, "a red mug set", "https://www.aliexpress.com/item/1.html", none, none, none⟩

def bluePlate : PlatformProduct :=
  ⟨.shopify, "blue plate", "https://x.myshopify.com/products/plate", none, none, none⟩

lemma score_redMugExact : computeScore "red mug" redMugExact = 3 := by
  have h1 : (lowerStr "red mug").length = 7 := by decide
  have h2 : containsStr (lowerStr "red mug") (lowerStr "red mug") = true := by decide
  simp [computeScore, redMugExact, h1, h2]
  norm_num [max_def]

lemma score_redMugSet : computeScore "red mug" redMugSet = 15 / 7 := by
  have h1 : (lowerStr "red mug").length = 7 := by decide
  have h2 : (lowerStr "a red mug set").length = 13 := by decide
  have h3 : containsStr (lowerStr "a red mug set") (lowerStr "red mug") = true := by decide
  simp [computeScore, redMugSet, h1, h2, h3]
  norm_num [max_def]

lemma score_bluePlate : computeScore "red mug" bluePlate = 4 / 7 := by
  have h1 : (lowerStr "red mug").length = 7 := by decide
  have h2 : (lowerStr "blue plate").length = 10 := by decide
  have h3 : containsStr (lowerStr "blue plate") (lowerStr "red mug") = false := by decide
  simp [computeScore, bluePlate, h1, h2, h3]
  norm_num [max_def]

lemma sort_redMug_example :
    sortByRelevance "red mug" [bluePlate, redMugSet, redMugExact] =
      [redMugExact, redMugSet, bluePlate] := by
  have hse : ¬ relevanceRel "red mug" redMugSet redMugExact := by
    rw [relevanceRel, score_redMugExact, score_redMugSet]; norm_num
  have hbe : ¬ relevanceRel "red mug" bluePlate redMugExact := by
    rw [relevanceRel, score_redMugExact, score_bluePlate]; norm_num
  have hbs : ¬ relevanceRel "red mug" bluePlate redMugSet := by
    rw [relevanceRel, score_redMugSet, score_bluePlate]; norm_num
  simp [sortByRelevance, List.insertionSort, List.orderedInsert, hse, hbe, hbs]

/-- C3: the computed relevance score is exactly the spec's formula
(2 for a case-insensitive substring hit plus the length penalty, over
the original title/query lengths), an empty-titled listing scores 0,
every ranked sequence is sorted by score descending, ties keep their
original relative order (for each score value, the sub-sequence at that
score is the input's sub-sequence at that score), and on the concrete
`red mug` example the scores are 3 > 15/7 > 4/7 with the output in that
descending order. -/
theorem claim_C3 :
    (∀ query product, computeScore query product = specScore query product) ∧
    (∀ (query : String) (platform : PlatformName) (url : String) (price : Option JsFloat)
      (currency image : Option String),
      computeScore query ⟨platform, "", url, price, currency, image⟩ = 0) ∧
    (∀ query products,
      List.Sorted (fun a b => computeScore query b ≤ computeScore query a)
        (sortByRelevance query products)) ∧
    (∀ (query : String) (s : ℚ) products,
      (sortByRelevance query products).filter (fun p => decide (computeScore query p = s)) =
        products.filter (fun p => decide (computeScore query p = s))) ∧
    computeScore "red mug" redMugExact = 3 ∧
    computeScore "red mug" redMugSet = 15 / 7 ∧
    computeScore "red mug" bluePlate = 4 / 7 ∧
    sortByRelevance "red mug" [bluePlate, redMugSet, redMugExact] =
      [redMugExact, redMugSet, bluePlate] :=
  ⟨computeScore_eq_specScore,
   fun query platform url price currency image => by simp [computeScore],
   fun query products => List.sorted_insertionSort (relevanceRel query) products,
   filter_sortByRelevance,
   score_redMugExact, score_redMugSet, score_bluePlate, sort_redMug_example⟩

/-! ### C7 and C8: where the code diverges from the documented intent -/

/-- C7: evaluation of the Amazon link normalizer at a root-relative raw
link carrying a product code in the known `/dp/<code>` shape.  The
absolutization step writes an empty separator for leading-slash links
and then strips their leading slashes, so the origin and the path are
glued together: the result keeps host `www.amazon.comdp` and is not the
canonical `/dp/<CODE>` form the claim requires.  The third conjunct
pins the divergence to that step: an already-absolute link with the
same code is canonicalized exactly as claimed. -/
theorem claim_C7_bug_eval :
    normalizeProductLink "/dp/B0ABCD1234" = some "https://www.amazon.comdp/B0ABCD1234" ∧
    normalizeProductLink "/dp/B0ABCD1234" ≠ some "https://www.amazon.com/dp/B0ABCD1234" ∧
    normalizeProductLink "https://www.amazon.com/dp/b0abcd1234/ref=sr_1_1" =
      some "https://www.amazon.com/dp/B0ABCD1234" := by
  refine ⟨by decide, by decide, by decide⟩

def aliTitleBugCandidate : AliExpressCandidate :=
  ⟨none, "", "Ceramic Travel Mug 350ml", "Ceramic Travel Mug 350ml",
    some "https://www.aliexpress.com/item/1005001.html", none, none, none, none,
    "", "", "", ""⟩

/-- C8: evaluation of the AliExpress title choice and parse at a
candidate whose anchor has no `title` attribute and whose first
title-class element is absent (text `""`), while the second title-class
text and the anchor text are both `"Ceramic Travel Mug 350ml"` and a
product link is present.  Because `??` never falls through after the
first `.text()` call, the title resolves to the empty string instead of
the claimed second fallback, and the candidate — which has a link and a
claimed non-empty title — is dropped entirely. -/
theorem claim_C8_bug_eval :
    aliTitle aliTitleBugCandidate = "" ∧
    aliTitleBugCandidate.manhattanTitleText = "Ceramic Travel Mug 350ml" ∧
    aliHref aliTitleBugCandidate = some "https://www.aliexpress.com/item/1005001.html" ∧
    aliexpressParseProducts [aliTitleBugCandidate] 10 = [] := by
  refine ⟨by decide, by decide, by decide, by decide⟩
